import Mathlib

/-!
A verification development for the Geometric SMOTE oversampling algorithm
(`imbtools/algorithms/geometric_smote.py`).

The embedding models feature vectors as points of `EuclideanSpace ℝ (Fin d)`,
randomness as explicit input streams (a drawn standard-normal vector and a
uniform value per sampler call, an integer stream and per-draw derived
sub-generators for the batch generator), and the external nearest-neighbour
search capability as oracle functions producing a radius matrix.  Side effects
of the resampling pass (fitting the neighbour-search objects, dense/sparse row
concatenation) are made explicit through an event log threaded through the
per-class fold.
-/

open scoped BigOperators

/-- Feature vectors of dimension `d`, with the Euclidean norm. -/
abbrev RVec (d : ℕ) : Type := EuclideanSpace ℝ (Fin d)

/-- Embedding of `_make_geometric_sample(center, radius, random_state)`.
The generator's two draws are passed explicitly: `normal_samples` is the drawn
`d`-dimensional standard-normal vector and `u` the drawn uniform value in
`[0, 1)`.  The source computes
`on_sphere = normal_samples / norm(normal_samples)`,
`in_ball = (u ** (1/d)) * on_sphere`, and returns `center + radius * in_ball`. -/
noncomputable def make_geometric_sample (d : ℕ) (center : RVec d) (radius : ℝ)
    (normal_samples : RVec d) (u : ℝ) : RVec d :=
  let on_sphere : RVec d := ‖normal_samples‖⁻¹ • normal_samples
  let in_ball : RVec d := (u ^ ((1 : ℝ) / (d : ℝ))) • on_sphere
  center + radius • in_ball

/-- C1: for every center, every radius > 0, and every generator state whose
drawn standard-normal vector is nonzero (with the uniform draw in `[0,1)`),
the sampled point lies in the closed ball:
`‖sample(center, radius, rng) − center‖ ≤ radius`. -/
theorem geometric_sample_within_radius (d : ℕ) (center : RVec d) (radius : ℝ)
    (ns : RVec d) (u : ℝ) (hr : 0 < radius) (hns : ns ≠ 0)
    (hu0 : 0 ≤ u) (hu1 : u < 1) :
    ‖make_geometric_sample d center radius ns u - center‖ ≤ radius := by
  have hns' : ‖ns‖ ≠ 0 := norm_ne_zero_iff.mpr hns
  have h1 : make_geometric_sample d center radius ns u - center
      = (radius * (u ^ ((1 : ℝ) / (d : ℝ)) * ‖ns‖⁻¹)) • ns := by
    simp only [make_geometric_sample, smul_smul]
    rw [add_sub_cancel_left]
  have hnn : 0 ≤ radius * (u ^ ((1 : ℝ) / (d : ℝ)) * ‖ns‖⁻¹) :=
    mul_nonneg hr.le
      (mul_nonneg (Real.rpow_nonneg hu0 _) (inv_nonneg.mpr (norm_nonneg ns)))
  rw [h1, norm_smul, Real.norm_eq_abs, abs_of_nonneg hnn]
  have h2 : radius * (u ^ ((1 : ℝ) / (d : ℝ)) * ‖ns‖⁻¹) * ‖ns‖
      = radius * u ^ ((1 : ℝ) / (d : ℝ)) := by
    field_simp
  rw [h2]
  have ht1 : u ^ ((1 : ℝ) / (d : ℝ)) ≤ 1 :=
    Real.rpow_le_one hu0 hu1.le (by positivity)
  calc radius * u ^ ((1 : ℝ) / (d : ℝ)) ≤ radius * 1 :=
        mul_le_mul_of_nonneg_left ht1 hr.le
    _ = radius := mul_one radius

/-- Witness for C1 at `d = 1`, `center = 0`, `radius = 1`,
`normal_samples = (1)`, `u = 0`. -/
theorem geometric_sample_within_radius_witness :
    (0 : ℝ) < 1 ∧ ((fun _ => (1 : ℝ)) : RVec 1) ≠ 0 ∧ (0 : ℝ) ≤ 0 ∧ (0 : ℝ) < 1 ∧
    ‖make_geometric_sample 1 0 1 (fun _ => (1 : ℝ)) 0 - 0‖ ≤ 1 := by
  refine ⟨one_pos, fun h => one_ne_zero (congrFun h 0), le_refl 0, one_pos, ?_⟩
  exact geometric_sample_within_radius 1 0 1 (fun _ => (1 : ℝ)) 0 one_pos
    (fun h => one_ne_zero (congrFun h 0)) (le_refl 0) one_pos

/-- C2: for every center and every generator state, radius `0` returns the
center exactly: `sample(center, 0, rng) = center`. -/
theorem geometric_sample_zero_radius (d : ℕ) (center : RVec d)
    (ns : RVec d) (u : ℝ) :
    make_geometric_sample d center 0 ns u = center := by
  simp [make_geometric_sample]

/-- The radius matrix produced by a nearest-neighbour query:
`rows` points, `cols` neighbour ranks, `val r c` the distance entry. -/
structure RadiiMat where
  rows : ℕ
  cols : ℕ
  val : ℕ → ℕ → ℝ

/-- Modelled from the spec: the random-generator capability consumed by the
batch generator.  `randint high j` is the `j`-th drawn uniform integer in
`[0, high)` and `child j` the standard-normal vector and uniform value drawn
from the `j`-th pre-derived sub-generator (the source derives one sub-state
per draw via `check_random_states`, in `imbtools/utils`, which is not part of
the sources given; per the spec it deterministically pre-derives one
sub-generator per draw index from the parent state). -/
structure RNG (d : ℕ) where
  randint : ℕ → ℕ → ℕ
  child : ℕ → RVec d × ℝ

/-- The batch returned by `_make_geometric_samples`: synthetic rows, their
labels, and whether the feature block is a sparse matrix (the source
allocates it with `np.zeros`, hence dense). -/
structure Batch (d : ℕ) (L : Type) where
  X_new : List (RVec d)
  y_new : List L
  isSparse : Bool

/-- Embedding of `_make_geometric_samples(X, class_label, radii, n_samples,
random_state)`.  The source draws `n_samples` uniform integers in
`[0, len(radii.flatten()))`, decodes each as
`row = floor_divide(i, radii.shape[1])`, `col = mod(i, radii.shape[1])`, and
fills row `j` of a zero matrix with
`_make_geometric_sample(X[row], radii[row, col], random_states[j])`;
`y_new = [class_label] * len(samples_indices)`. -/
noncomputable def make_geometric_samples (d : ℕ) {L : Type} (X : List (RVec d))
    (class_label : L) (radii : RadiiMat) (n_samples : ℕ) (rng : RNG d) :
    Batch d L :=
  let samples_indices : List ℕ :=
    (List.range n_samples).map (rng.randint (radii.rows * radii.cols))
  { X_new := samples_indices.enum.map (fun p =>
      let row := p.2 / radii.cols
      let col := p.2 % radii.cols
      make_geometric_sample d (X.getD row 0) (radii.val row col)
        (rng.child p.1).1 (rng.child p.1).2)
    y_new := List.replicate samples_indices.length class_label
    isSparse := false }

/-- C3: each drawn flat index decodes as `row = i / k`, `col = i % k`, and the
synthetic sample is anchored at `X[row]` with radius `radii[row, col]`; and
for `n_points = 3`, `k = 2`, index sequence `[0, 1, 2, 3, 4, 5]` the decoded
(row, col) pairs are `(0,0), (0,1), (1,0), (1,1), (2,0), (2,1)`. -/
theorem geometric_samples_index_decoding (d : ℕ) (X : List (RVec d)) (c : ℤ)
    (radii : RadiiMat) (n_samples : ℕ) (rng : RNG d) :
    (∀ j, j < n_samples →
      (make_geometric_samples d X c radii n_samples rng).X_new[j]? =
        some (make_geometric_sample d
          (X.getD (rng.randint (radii.rows * radii.cols) j / radii.cols) 0)
          (radii.val (rng.randint (radii.rows * radii.cols) j / radii.cols)
            (rng.randint (radii.rows * radii.cols) j % radii.cols))
          (rng.child j).1 (rng.child j).2)) ∧
    (∀ (r : ℕ → ℕ → ℝ) (ch : ℕ → RVec d × ℝ),
      (make_geometric_samples d X c ⟨3, 2, r⟩ 6 ⟨fun _ j => j, ch⟩).X_new =
        [make_geometric_sample d (X.getD 0 0) (r 0 0) (ch 0).1 (ch 0).2,
         make_geometric_sample d (X.getD 0 0) (r 0 1) (ch 1).1 (ch 1).2,
         make_geometric_sample d (X.getD 1 0) (r 1 0) (ch 2).1 (ch 2).2,
         make_geometric_sample d (X.getD 1 0) (r 1 1) (ch 3).1 (ch 3).2,
         make_geometric_sample d (X.getD 2 0) (r 2 0) (ch 4).1 (ch 4).2,
         make_geometric_sample d (X.getD 2 0) (r 2 1) (ch 5).1 (ch 5).2]) := by
  constructor
  · intro j hj
    simp [make_geometric_samples, List.getElem?_enum, List.getElem?_map,
      List.getElem?_range, hj]
  · intro r ch
    simp [make_geometric_samples, List.range_succ, List.enum]

/-- Witness for C3 at `n_samples = 1`, `j = 0`, with a constant generator. -/
theorem geometric_samples_index_decoding_witness :
    (make_geometric_samples 1 ([] : List (RVec 1)) (0 : ℤ) ⟨1, 1, fun _ _ => 0⟩
        1 ⟨fun _ _ => 0, fun _ => (0, 0)⟩).X_new[0]? =
      some (make_geometric_sample 1 (([] : List (RVec 1)).getD 0 0) 0 0 0) := by
  have h := (geometric_samples_index_decoding 1 [] 0 ⟨1, 1, fun _ _ => 0⟩
    1 ⟨fun _ _ => 0, fun _ => (0, 0)⟩).1 0 (by decide)
  simpa using h

/-- C4: the batch generator called with `n_samples = N` on a non-empty radius
matrix returns exactly `N` synthetic rows and `N` labels, each label the
target class label. -/
theorem geometric_samples_batch_shape (d : ℕ) {L : Type} (X : List (RVec d))
    (c : L) (radii : RadiiMat) (n_samples : ℕ) (rng : RNG d)
    (_hne : 0 < radii.rows * radii.cols) :
    (make_geometric_samples d X c radii n_samples rng).X_new.length = n_samples ∧
    (make_geometric_samples d X c radii n_samples rng).y_new.length = n_samples ∧
    ∀ l ∈ (make_geometric_samples d X c radii n_samples rng).y_new, l = c := by
  refine ⟨?_, ?_, ?_⟩
  · simp [make_geometric_samples, List.enum_length]
  · simp [make_geometric_samples]
  · intro l hl
    exact List.eq_of_mem_replicate (by simpa [make_geometric_samples] using hl)

/-- Witness for C4 at a 1×1 radius matrix and `N = 2`. -/
theorem geometric_samples_batch_shape_witness :
    (0 : ℕ) < 1 * 1 ∧
    ((make_geometric_samples 1 ([] : List (RVec 1)) (7 : ℤ) ⟨1, 1, fun _ _ => 0⟩
        2 ⟨fun _ _ => 0, fun _ => (0, 0)⟩).X_new.length = 2 ∧
      (make_geometric_samples 1 ([] : List (RVec 1)) (7 : ℤ) ⟨1, 1, fun _ _ => 0⟩
        2 ⟨fun _ _ => 0, fun _ => (0, 0)⟩).y_new.length = 2 ∧
      ∀ l ∈ (make_geometric_samples 1 ([] : List (RVec 1)) (7 : ℤ)
        ⟨1, 1, fun _ _ => 0⟩ 2 ⟨fun _ _ => 0, fun _ => (0, 0)⟩).y_new, l = 7) :=
  ⟨Nat.one_pos, geometric_samples_batch_shape 1 [] 7 ⟨1, 1, fun _ _ => 0⟩ 2
    ⟨fun _ _ => 0, fun _ => (0, 0)⟩ Nat.one_pos⟩

/-- `safe_indexing(X, np.flatnonzero(y == class_label))`: the rows of `X`
whose label equals the target class, in order. -/
def positivePart {d : ℕ} {L : Type} [DecidableEq L] (X : List (RVec d))
    (y : List L) (c : L) : List (RVec d) :=
  ((X.zip y).filter (fun p => decide (p.2 = c))).map (fun p => p.1)

/-- `safe_indexing(X, np.flatnonzero(y != class_label))`: the rows of `X`
whose label differs from the target class, in order. -/
def negativePart {d : ℕ} {L : Type} [DecidableEq L] (X : List (RVec d))
    (y : List L) (c : L) : List (RVec d) :=
  ((X.zip y).filter (fun p => !(decide (p.2 = c)))).map (fun p => p.1)

/-- The side effects of one pass of `_sample`, made explicit: fitting the
minority/majority neighbour-search object for a class, and which vstack
branch (sparse or dense) concatenated the batch. -/
inductive SampleEvent (L : Type) where
  | fitMinority (c : L)
  | fitMajority (c : L)
  | sparseVstack
  | denseVstack

/-- `GEOMETRIC_SMOTE_KIND = ('regular', 'majority', 'minority')`. -/
def GEOMETRIC_SMOTE_KIND : List String := ["regular", "majority", "minority"]

/-- The state of a `GeometricSMOTE` instance as `_sample` consumes it:
`kind`, the per-class required counts `self.ratio_` (in iteration order), the
generator stream obtained from `check_random_state(self.random_state)`, and
the two nearest-neighbour oracles `self.nn_minority_` / `self.nn_majority_`
as functions from (fit set, query set) to a radius matrix. -/
structure GSmoteConfig (d : ℕ) (L : Type) where
  kind : String
  ratio_ : List (L × ℕ)
  rng : RNG d
  nn_minority : List (RVec d) → List (RVec d) → RadiiMat
  nn_majority : List (RVec d) → List (RVec d) → RadiiMat

/-- The batch `(X_new, y_new)` left in the working variables after the two
conditional branches of `_sample` for one class: the minority branch runs for
kind `minority` or `regular` (radii from fitting on `X_positive` and querying
`X_positive`), the majority branch for kind `majority` or `regular` (radii
from fitting on `X_negative` and querying `X_positive`), and an assignment by
the majority branch overwrites the minority one. -/
noncomputable def chooseBatch {d : ℕ} {L : Type} [DecidableEq L]
    (cfg : GSmoteConfig d L) (X : List (RVec d)) (y : List L) (c : L) (n : ℕ) :
    Batch d L :=
  let Xpos := positivePart X y c
  let Xneg := negativePart X y c
  let minB : Option (Batch d L) :=
    if cfg.kind = "minority" ∨ cfg.kind = "regular" then
      some (make_geometric_samples d Xpos c (cfg.nn_minority Xpos Xpos) n cfg.rng)
    else none
  let majB : Option (Batch d L) :=
    if cfg.kind = "majority" ∨ cfg.kind = "regular" then
      some (make_geometric_samples d Xpos c (cfg.nn_majority Xneg Xpos) n cfg.rng)
    else none
  majB.getD (minB.getD ⟨[], [], false⟩)

/-- The events recorded while `_sample` processes one class with a nonzero
required count: the neighbour-search fits performed by the branches that run
for the configured kind, then the vstack branch chosen by
`sparse.issparse(X_new)`. -/
noncomputable def stepLog {d : ℕ} {L : Type} [DecidableEq L]
    (cfg : GSmoteConfig d L) (X : List (RVec d)) (y : List L) (c : L) (n : ℕ) :
    List (SampleEvent L) :=
  (if cfg.kind = "minority" ∨ cfg.kind = "regular"
    then [SampleEvent.fitMinority c] else [])
  ++ (if cfg.kind = "majority" ∨ cfg.kind = "regular"
    then [SampleEvent.fitMajority c] else [])
  ++ [if (chooseBatch cfg X y c n).isSparse
    then SampleEvent.sparseVstack else SampleEvent.denseVstack]

/-- The accumulated state of the per-class loop of `_sample`: the resampled
rows, the resampled labels, and the event log. -/
structure SampleState (d : ℕ) (L : Type) where
  Xr : List (RVec d)
  yr : List L
  log : List (SampleEvent L)

/-- One iteration of `for class_label, n_samples in self.ratio_.items()`:
a zero count `continue`s; otherwise the batch left by the branches is
vstacked onto `X_resampled` and its labels hstacked onto `y_resampled`. -/
noncomputable def sample_step {d : ℕ} {L : Type} [DecidableEq L]
    (cfg : GSmoteConfig d L) (X : List (RVec d)) (y : List L)
    (st : SampleState d L) (p : L × ℕ) : SampleState d L :=
  if p.2 = 0 then st
  else
    let B := chooseBatch cfg X y p.1 p.2
    { Xr := st.Xr ++ B.X_new
      yr := st.yr ++ B.y_new
      log := st.log ++ stepLog cfg X y p.1 p.2 }

/-- Embedding of `GeometricSMOTE._sample(X, y)`: `_validate_estimator` raises
a `ValueError` for an unknown kind before any data is touched; otherwise the
pass starts from copies of `X` and `y` and folds the per-class loop over
`self.ratio_`. -/
noncomputable def GSMOTE_sample {d : ℕ} {L : Type} [DecidableEq L]
    (cfg : GSmoteConfig d L) (X : List (RVec d)) (y : List L) :
    Except String (SampleState d L) :=
  if cfg.kind ∈ GEOMETRIC_SMOTE_KIND then
    Except.ok (cfg.ratio_.foldl (sample_step cfg X y) ⟨X, y, []⟩)
  else
    Except.error ("Unknown kind for Geometric SMOTE algorithm. Choices are regular, majority, minority. Got " ++ cfg.kind ++ " instead.")

/-- The per-class batches generated while folding over a count list `l`:
one batch per entry with a nonzero count. -/
noncomputable def batchList {d : ℕ} {L : Type} [DecidableEq L]
    (cfg : GSmoteConfig d L) (X : List (RVec d)) (y : List L)
    (l : List (L × ℕ)) : List (Batch d L) :=
  l.filterMap (fun p => if p.2 = 0 then none
    else some (chooseBatch cfg X y p.1 p.2))

/-- The events logged while folding over a count list `l`. -/
noncomputable def logList {d : ℕ} {L : Type} [DecidableEq L]
    (cfg : GSmoteConfig d L) (X : List (RVec d)) (y : List L)
    (l : List (L × ℕ)) : List (SampleEvent L) :=
  (l.map (fun p => if p.2 = 0 then [] else stepLog cfg X y p.1 p.2)).flatten

/-- The batches `_sample` appends, one per class of `self.ratio_` with a
nonzero required count. -/
noncomputable def classBatches {d : ℕ} {L : Type} [DecidableEq L]
    (cfg : GSmoteConfig d L) (X : List (RVec d)) (y : List L) :
    List (Batch d L) :=
  batchList cfg X y cfg.ratio_

lemma sample_foldl_eq {d : ℕ} {L : Type} [DecidableEq L]
    (cfg : GSmoteConfig d L) (X : List (RVec d)) (y : List L) :
    ∀ (l : List (L × ℕ)) (st : SampleState d L),
      l.foldl (sample_step cfg X y) st =
        ⟨st.Xr ++ ((batchList cfg X y l).map Batch.X_new).flatten,
         st.yr ++ ((batchList cfg X y l).map Batch.y_new).flatten,
         st.log ++ logList cfg X y l⟩ := by
  intro l
  induction l with
  | nil => intro st; simp [batchList, logList]
  | cons p l ih =>
    intro st
    by_cases hp : p.2 = 0
    · simp [List.foldl_cons, sample_step, hp, ih, batchList, logList]
    · simp [List.foldl_cons, sample_step, hp, ih, batchList, logList,
        List.append_assoc]

lemma chooseBatch_regular {d : ℕ} {L : Type} [DecidableEq L]
    (cfg : GSmoteConfig d L) (X : List (RVec d)) (y : List L) (c : L) (n : ℕ)
    (hk : cfg.kind = "regular") :
    chooseBatch cfg X y c n =
      make_geometric_samples d (positivePart X y c) c
        (cfg.nn_majority (negativePart X y c) (positivePart X y c)) n cfg.rng := by
  simp [chooseBatch, hk]

lemma chooseBatch_majority {d : ℕ} {L : Type} [DecidableEq L]
    (cfg : GSmoteConfig d L) (X : List (RVec d)) (y : List L) (c : L) (n : ℕ)
    (hk : cfg.kind = "majority") :
    chooseBatch cfg X y c n =
      make_geometric_samples d (positivePart X y c) c
        (cfg.nn_majority (negativePart X y c) (positivePart X y c)) n cfg.rng := by
  simp [chooseBatch, hk]

lemma chooseBatch_isSparse {d : ℕ} {L : Type} [DecidableEq L]
    (cfg : GSmoteConfig d L) (X : List (RVec d)) (y : List L) (c : L) (n : ℕ) :
    (chooseBatch cfg X y c n).isSparse = false := by
  by_cases h1 : cfg.kind = "majority" ∨ cfg.kind = "regular" <;>
    by_cases h2 : cfg.kind = "minority" ∨ cfg.kind = "regular" <;>
      simp [chooseBatch, h1, h2, make_geometric_samples]

lemma sparse_not_mem_stepLog {d : ℕ} {L : Type} [DecidableEq L]
    (cfg : GSmoteConfig d L) (X : List (RVec d)) (y : List L) (c : L) (n : ℕ) :
    SampleEvent.sparseVstack ∉ stepLog cfg X y c n := by
  by_cases h1 : cfg.kind = "minority" ∨ cfg.kind = "regular" <;>
    by_cases h2 : cfg.kind = "majority" ∨ cfg.kind = "regular" <;>
      simp [stepLog, h1, h2, chooseBatch_isSparse]

/-- C5: in regular mode both radius sets are computed (both neighbour-search
fits appear in the log for every processed class), but the generated data
reflects only the majority radii, computed last: the output is unchanged by
replacing the minority oracle, and its data part coincides with that of
majority mode. -/
theorem regular_mode_last_radii_wins {d : ℕ} {L : Type} [DecidableEq L]
    (cfg : GSmoteConfig d L) (X : List (RVec d)) (y : List L)
    (hk : cfg.kind = "regular") :
    (∀ g, GSMOTE_sample cfg X y =
      GSMOTE_sample { cfg with nn_minority := g } X y) ∧
    Except.map (fun st => (st.Xr, st.yr)) (GSMOTE_sample cfg X y) =
      Except.map (fun st => (st.Xr, st.yr))
        (GSMOTE_sample { cfg with kind := "majority" } X y) ∧
    (∀ st, GSMOTE_sample cfg X y = Except.ok st →
      ∀ p ∈ cfg.ratio_, p.2 ≠ 0 →
        SampleEvent.fitMinority p.1 ∈ st.log ∧
        SampleEvent.fitMajority p.1 ∈ st.log) := by
  rcases cfg with ⟨k, rat, rg, nmin, nmaj⟩
  simp only at hk
  subst hk
  refine ⟨?_, ?_, ?_⟩
  · intro g
    have hcb : ∀ c n,
        chooseBatch (⟨"regular", rat, rg, nmin, nmaj⟩ : GSmoteConfig d L) X y c n =
        chooseBatch (⟨"regular", rat, rg, g, nmaj⟩ : GSmoteConfig d L) X y c n := by
      intro c n
      rw [chooseBatch_regular _ _ _ _ _ rfl, chooseBatch_regular _ _ _ _ _ rfl]
    have hstep :
        sample_step (⟨"regular", rat, rg, nmin, nmaj⟩ : GSmoteConfig d L) X y =
        sample_step (⟨"regular", rat, rg, g, nmaj⟩ : GSmoteConfig d L) X y := by
      funext st p
      by_cases hp : p.2 = 0
      · simp [sample_step, hp]
      · simp [sample_step, stepLog, hp, hcb]
    simp only [GSMOTE_sample, hstep]
  · have hcb : ∀ c n,
        chooseBatch (⟨"regular", rat, rg, nmin, nmaj⟩ : GSmoteConfig d L) X y c n =
        chooseBatch (⟨"majority", rat, rg, nmin, nmaj⟩ : GSmoteConfig d L) X y c n := by
      intro c n
      rw [chooseBatch_regular _ _ _ _ _ rfl, chooseBatch_majority _ _ _ _ _ rfl]
    have hbl :
        batchList (⟨"regular", rat, rg, nmin, nmaj⟩ : GSmoteConfig d L) X y rat =
        batchList (⟨"majority", rat, rg, nmin, nmaj⟩ : GSmoteConfig d L) X y rat := by
      have hf : (fun p : L × ℕ => if p.2 = 0 then none
            else some (chooseBatch
              (⟨"regular", rat, rg, nmin, nmaj⟩ : GSmoteConfig d L) X y p.1 p.2)) =
          (fun p : L × ℕ => if p.2 = 0 then none
            else some (chooseBatch
              (⟨"majority", rat, rg, nmin, nmaj⟩ : GSmoteConfig d L) X y p.1 p.2)) := by
        funext p
        by_cases hp : p.2 = 0
        · simp [hp]
        · simp [hp, hcb]
      unfold batchList
      rw [hf]
    simp only [GSMOTE_sample]
    rw [if_pos (by simp [GEOMETRIC_SMOTE_KIND]), if_pos (by simp [GEOMETRIC_SMOTE_KIND])]
    rw [sample_foldl_eq, sample_foldl_eq]
    simp [Except.map, hbl]
  · intro st hst p hp hn
    have hok : (⟨"regular", rat, rg, nmin, nmaj⟩ : GSmoteConfig d L).ratio_.foldl
        (sample_step ⟨"regular", rat, rg, nmin, nmaj⟩ X y) ⟨X, y, []⟩ = st := by
      have := hst
      unfold GSMOTE_sample at this
      rw [if_pos (by simp [GEOMETRIC_SMOTE_KIND])] at this
      exact (Except.ok.injEq _ _).mp this
    rw [sample_foldl_eq] at hok
    have hlog : st.log =
        logList (⟨"regular", rat, rg, nmin, nmaj⟩ : GSmoteConfig d L) X y rat := by
      rw [← hok]
      simp
    have hmem : stepLog (⟨"regular", rat, rg, nmin, nmaj⟩ : GSmoteConfig d L)
        X y p.1 p.2 ∈ (rat.map (fun q => if q.2 = 0 then []
          else stepLog (⟨"regular", rat, rg, nmin, nmaj⟩ : GSmoteConfig d L)
            X y q.1 q.2)) := by
      have := List.mem_map_of_mem (fun q => if q.2 = 0 then []
        else stepLog (⟨"regular", rat, rg, nmin, nmaj⟩ : GSmoteConfig d L)
          X y q.1 q.2) hp
      simpa [hn] using this
    constructor
    · rw [hlog]
      exact List.mem_flatten.mpr ⟨_, hmem, by simp [stepLog]⟩
    · rw [hlog]
      exact List.mem_flatten.mpr ⟨_, hmem, by simp [stepLog]⟩

/-- A trivial generator stream used in concrete instantiations. -/
noncomputable def rngW : RNG 1 := ⟨fun _ _ => 0, fun _ => (0, 0)⟩

/-- A trivial neighbour-search oracle used in concrete instantiations. -/
def nnW : List (RVec 1) → List (RVec 1) → RadiiMat :=
  fun _ _ => ⟨1, 1, fun _ _ => 0⟩

/-- A second, different neighbour-search oracle used in concrete
instantiations. -/
def nnW2 : List (RVec 1) → List (RVec 1) → RadiiMat :=
  fun _ _ => ⟨2, 2, fun _ _ => 1⟩

/-- Witness for C5: in regular mode, swapping the minority oracle leaves the
resampling output unchanged. -/
theorem regular_mode_last_radii_wins_witness :
    GSMOTE_sample (⟨"regular", [((0 : ℤ), 1)], rngW, nnW, nnW⟩ :
        GSmoteConfig 1 ℤ) [] [] =
    GSMOTE_sample (⟨"regular", [((0 : ℤ), 1)], rngW, nnW2, nnW⟩ :
        GSmoteConfig 1 ℤ) [] [] :=
  (regular_mode_last_radii_wins _ [] [] rfl).1 nnW2

/-- C6: a target class whose required count is zero is skipped before any
neighbour search is fit: removing its entry from the ratio mapping leaves the
whole resampling output (data and event log) unchanged, and no error arises. -/
theorem zero_count_class_skipped {d : ℕ} {L : Type} [DecidableEq L]
    (cfg : GSmoteConfig d L) (X : List (RVec d)) (y : List L)
    (r1 r2 : List (L × ℕ)) (c : L) (h : cfg.ratio_ = r1 ++ (c, 0) :: r2) :
    GSMOTE_sample cfg X y = GSMOTE_sample { cfg with ratio_ := r1 ++ r2 } X y := by
  rcases cfg with ⟨k, rat, rg, nmin, nmaj⟩
  simp only at h
  subst h
  have hstep :
      sample_step (⟨k, r1 ++ (c, 0) :: r2, rg, nmin, nmaj⟩ : GSmoteConfig d L) X y =
      sample_step (⟨k, r1 ++ r2, rg, nmin, nmaj⟩ : GSmoteConfig d L) X y := rfl
  have hcb :
      batchList (⟨k, r1 ++ r2, rg, nmin, nmaj⟩ : GSmoteConfig d L) X y
          (r1 ++ (c, 0) :: r2) =
      batchList (⟨k, r1 ++ r2, rg, nmin, nmaj⟩ : GSmoteConfig d L) X y
          (r1 ++ r2) := by
    simp [batchList, List.filterMap_append]
  have hll :
      logList (⟨k, r1 ++ r2, rg, nmin, nmaj⟩ : GSmoteConfig d L) X y
          (r1 ++ (c, 0) :: r2) =
      logList (⟨k, r1 ++ r2, rg, nmin, nmaj⟩ : GSmoteConfig d L) X y
          (r1 ++ r2) := by
    simp [logList, List.map_append]
  unfold GSMOTE_sample
  by_cases hk : k ∈ GEOMETRIC_SMOTE_KIND
  · rw [if_pos hk, if_pos hk, hstep, sample_foldl_eq, sample_foldl_eq, hcb, hll]
  · rw [if_neg hk, if_neg hk]

/-- Witness for C6 at a single class with count zero. -/
theorem zero_count_class_skipped_witness :
    GSMOTE_sample (⟨"minority", [((0 : ℤ), 0)], rngW, nnW, nnW⟩ :
        GSmoteConfig 1 ℤ) [] [] =
    GSMOTE_sample (⟨"minority", [], rngW, nnW, nnW⟩ : GSmoteConfig 1 ℤ) [] [] :=
  zero_count_class_skipped _ [] [] [] [] 0 rfl

/-- C7: a kind outside {regular, majority, minority} makes the resampling
call fail with the configuration error, uniformly in the data (so before any
feature or label is read); any kind in the set never produces that error. -/
theorem unknown_kind_rejected {d : ℕ} {L : Type} [DecidableEq L]
    (cfg : GSmoteConfig d L) :
    (cfg.kind ∉ GEOMETRIC_SMOTE_KIND → ∀ (X : List (RVec d)) (y : List L),
      GSMOTE_sample cfg X y = Except.error
        ("Unknown kind for Geometric SMOTE algorithm. Choices are regular, majority, minority. Got "
          ++ cfg.kind ++ " instead.")) ∧
    (cfg.kind ∈ GEOMETRIC_SMOTE_KIND → ∀ (X : List (RVec d)) (y : List L),
      ∃ st, GSMOTE_sample cfg X y = Except.ok st) := by
  constructor
  · intro h X y
    unfold GSMOTE_sample
    rw [if_neg h]
  · intro h X y
    unfold GSMOTE_sample
    rw [if_pos h]
    exact ⟨_, rfl⟩

/-- Witness for C7 at the invalid kind `geometric` and the valid kind
`regular`. -/
theorem unknown_kind_rejected_witness :
    GSMOTE_sample (⟨"geometric", [], rngW, nnW, nnW⟩ : GSmoteConfig 1 ℤ) [] [] =
      Except.error
        ("Unknown kind for Geometric SMOTE algorithm. Choices are regular, majority, minority. Got "
          ++ "geometric" ++ " instead.") ∧
    ∃ st, GSMOTE_sample (⟨"regular", [], rngW, nnW, nnW⟩ : GSmoteConfig 1 ℤ)
      [] [] = Except.ok st :=
  ⟨(unknown_kind_rejected _).1 (by decide) [] [],
   (unknown_kind_rejected _).2 (by decide) [] []⟩

/-- C8: the resampling pass returns the original rows and labels unchanged,
in their original order, with the per-class synthetic batches appended after
them, features and labels in the same per-class order. -/
theorem sample_appends_preserving_input {d : ℕ} {L : Type} [DecidableEq L]
    (cfg : GSmoteConfig d L) (X : List (RVec d)) (y : List L)
    (st : SampleState d L) (hst : GSMOTE_sample cfg X y = Except.ok st) :
    st.Xr = X ++ ((classBatches cfg X y).map Batch.X_new).flatten ∧
    st.yr = y ++ ((classBatches cfg X y).map Batch.y_new).flatten := by
  unfold GSMOTE_sample at hst
  by_cases hk : cfg.kind ∈ GEOMETRIC_SMOTE_KIND
  · rw [if_pos hk] at hst
    have h := (Except.ok.injEq _ _).mp hst
    rw [sample_foldl_eq] at h
    constructor
    · rw [← h]
      simp [classBatches]
    · rw [← h]
      simp [classBatches]
  · rw [if_neg hk] at hst
    simp at hst

/-- Witness for C8 at an empty dataset and empty ratio mapping. -/
theorem sample_appends_preserving_input_witness :
    ([] : List (RVec 1)) = [] ++
      ((classBatches (⟨"minority", [], rngW, nnW, nnW⟩ : GSmoteConfig 1 ℤ)
        [] []).map Batch.X_new).flatten ∧
    ([] : List ℤ) = [] ++
      ((classBatches (⟨"minority", [], rngW, nnW, nnW⟩ : GSmoteConfig 1 ℤ)
        [] []).map Batch.y_new).flatten :=
  sample_appends_preserving_input _ [] [] ⟨[], [], []⟩ rfl

/-- C9: the resampling computation is deterministic: equal generator streams
and equal inputs (features, labels, kind, per-class counts, neighbour
oracles) give identical outputs. -/
theorem resampling_deterministic {d : ℕ} {L : Type} [DecidableEq L]
    (cfg cfg' : GSmoteConfig d L) (X X' : List (RVec d)) (y y' : List L)
    (hk : cfg.kind = cfg'.kind) (hr : cfg.ratio_ = cfg'.ratio_)
    (hg : cfg.rng = cfg'.rng) (hmin : cfg.nn_minority = cfg'.nn_minority)
    (hmaj : cfg.nn_majority = cfg'.nn_majority) (hX : X = X') (hy : y = y') :
    GSMOTE_sample cfg X y = GSMOTE_sample cfg' X' y' := by
  rcases cfg with ⟨k, rat, rg, nmin, nmaj⟩
  rcases cfg' with ⟨k', rat', rg', nmin', nmaj'⟩
  simp only at hk hr hg hmin hmaj
  subst hk
  subst hr
  subst hg
  subst hmin
  subst hmaj
  subst hX
  subst hy
  rfl

/-- Witness for C9 at a concrete configuration, applied to itself. -/
theorem resampling_deterministic_witness :
    GSMOTE_sample (⟨"regular", [((0 : ℤ), 2)], rngW, nnW, nnW⟩ :
        GSmoteConfig 1 ℤ) [] [] =
    GSMOTE_sample (⟨"regular", [((0 : ℤ), 2)], rngW, nnW, nnW⟩ :
        GSmoteConfig 1 ℤ) [] [] :=
  resampling_deterministic _ _ [] [] [] [] rfl rfl rfl rfl rfl rfl rfl

/-- C10: the synthetic batch is always dense (allocated as a zero matrix), so
the sparse-vstack branch of the resampling pass is never taken: the event log
never contains a sparse concatenation. -/
theorem batch_always_dense_no_sparse_vstack {d : ℕ} {L : Type} [DecidableEq L]
    (cfg : GSmoteConfig d L) (X : List (RVec d)) (y : List L)
    (st : SampleState d L) (hst : GSMOTE_sample cfg X y = Except.ok st) :
    SampleEvent.sparseVstack ∉ st.log := by
  unfold GSMOTE_sample at hst
  by_cases hk : cfg.kind ∈ GEOMETRIC_SMOTE_KIND
  · rw [if_pos hk] at hst
    have h := (Except.ok.injEq _ _).mp hst
    rw [sample_foldl_eq] at h
    have hlog : st.log = logList cfg X y cfg.ratio_ := by
      rw [← h]
      simp
    rw [hlog]
    unfold logList
    intro hmem
    rcases List.mem_flatten.mp hmem with ⟨l, hl, hml⟩
    rcases List.mem_map.mp hl with ⟨p, _hp, rfl⟩
    by_cases hz : p.2 = 0
    · rw [if_pos hz] at hml
      exact List.not_mem_nil _ hml
    · rw [if_neg hz] at hml
      exact sparse_not_mem_stepLog _ _ _ _ _ hml
  · rw [if_neg hk] at hst
    simp at hst

/-- Witness for C10 at a concrete configuration with one generated batch. -/
theorem batch_always_dense_no_sparse_vstack_witness :
    SampleEvent.sparseVstack ∉
      (([((0 : ℤ), 1)]).foldl
        (sample_step (⟨"minority", [((0 : ℤ), 1)], rngW, nnW, nnW⟩ :
          GSmoteConfig 1 ℤ) [] []) ⟨[], [], []⟩).log :=
  batch_always_dense_no_sparse_vstack
    (⟨"minority", [((0 : ℤ), 1)], rngW, nnW, nnW⟩ : GSmoteConfig 1 ℤ)
    [] [] _ (by rfl)
